import Mathlib

/-!
Verification of the SAC (Seismic Analysis Code) binary codec of
`obspy/sac/core.py` (`isSAC`, `readSAC`, `writeSAC`).

The file embeds `core.py` shallowly.  The collaborators `obspy.sac.sacio`
(the raw header store, `GetHvalue`/`SetHvalue`, `fromarray`,
`ReadSacFile`/`ReadSacHeader`/`WriteSacBinary`) and `obspy.core`
(`Trace`, `UTCDateTime`) are not part of the given sources; where a
definition stands in for them it is marked `Modelled from the spec:` in
its doc string and follows the specification text.

Header float values, sample values and absolute times are modelled as
exact rationals (the spec's timestamp arithmetic is exact; samples pass
through the codec as opaque values).  An absolute time is a rational
number of seconds.
-/

namespace SAC

/-- The three binary kinds a SAC header slot can have: 32-bit float,
32-bit signed integer, fixed width string. -/
inductive SacKind where
  | kF
  | kI
  | kS
deriving DecidableEq

/-- A decoded SAC header value (float, integer or string). -/
inductive SacVal where
  | f (x : ℚ)
  | i (n : ℤ)
  | s (str : String)
deriving DecidableEq

/-- Modelled from the spec: the Header Schema component (the field table
of the missing `sacio` module).  SAC header slots are classified by the
SAC naming convention, which `sacio` follows: names beginning with `k`
are string slots, names beginning with `n`, `i` or `l` are integer
slots, everything else is a float slot. -/
def fieldKind (name : String) : SacKind :=
  match name.data with
  | [] => .kF
  | c :: _ =>
      if c = 'k' then .kS
      else if c = 'n' ∨ c = 'i' ∨ c = 'l' then .kI
      else .kF

/-- Modelled from the spec: the RawHeader of the missing `sacio` module,
kept (as `sacio` does) as three per-kind stores indexed by field name. -/
structure SacHeader where
  fvals : String → ℚ
  ivals : String → ℤ
  svals : String → String

/-- Update one float slot of a raw header. -/
def setF (h : SacHeader) (name : String) (x : ℚ) : SacHeader :=
  { h with fvals := fun k => if k = name then x else h.fvals k }

/-- Update one integer slot of a raw header. -/
def setI (h : SacHeader) (name : String) (n : ℤ) : SacHeader :=
  { h with ivals := fun k => if k = name then n else h.ivals k }

/-- Update one string slot of a raw header. -/
def setS (h : SacHeader) (name : String) (s : String) : SacHeader :=
  { h with svals := fun k => if k = name then s else h.svals k }

/-- Modelled from the spec: `sacio.InitArrays`, a fresh raw header with
every slot holding its kind's undefined sentinel (`-12345`, `-12345.0`,
the text `-12345`). -/
def initHeader : SacHeader :=
  { fvals := fun _ => -12345, ivals := fun _ => -12345, svals := fun _ => "-12345" }

/-- Error raised by the header store when a value of the wrong kind is
assigned to a slot. -/
inductive SetErr where
  | typeMismatch
deriving DecidableEq

/-- Modelled from the spec: `sacio.SetHvalue`.  Stores a value into the
slot of the matching kind; a value whose kind does not match the slot's
kind is a type-mismatch/encoding error (spec section 7: such errors
exist and `SetHvalue` signals them). -/
def setHvalue (h : SacHeader) (name : String) (v : SacVal) : Except SetErr SacHeader :=
  match v with
  | .f x => if fieldKind name = .kF then .ok (setF h name x) else .error .typeMismatch
  | .i n => if fieldKind name = .kI then .ok (setI h name n) else .error .typeMismatch
  | .s s => if fieldKind name = .kS then .ok (setS h name s) else .error .typeMismatch

/-- Modelled from the spec: `sacio.GetHvalue`, the raw decoded value of
a named slot (sentinels preserved verbatim). -/
def rawVal (h : SacHeader) (name : String) : SacVal :=
  match fieldKind name with
  | .kF => .f (h.fvals name)
  | .kI => .i (h.ivals name)
  | .kS => .s (h.svals name)

/-- The `convert_dict` table of `core.py`: SAC header name paired with
the generic trace attribute it is renamed to. -/
def convert_dict : List (String × String) :=
  [("npts", "npts"), ("delta", "delta"), ("kcmpnm", "channel"),
   ("kstnm", "station"), ("scale", "calib"), ("knetwk", "network"),
   ("khole", "location")]

/-- The `sac_extra` list of `core.py`: every header field carried
verbatim in the trace's `sac` side bag. -/
def sac_extra : List String :=
  ["depmin", "depmax", "odelta", "b", "e", "o", "a", "t0", "t1",
   "t2", "t3", "t4", "t5", "t6", "t7", "t8", "t9", "f", "stla", "stlo",
   "stel", "stdp", "evla", "evlo", "evdp", "mag", "user0", "user1", "user2",
   "user3", "user4", "user5", "user6", "user7", "user8", "user9", "dist",
   "az", "baz", "gcarc", "depmen", "cmpaz", "cmpinc", "nzyear", "nzjday",
   "nzhour", "nzmin", "nzsec", "nzmsec", "nvhdr", "norid", "nevid", "nwfid",
   "iftype", "idep", "iztype", "iinst", "istreg", "ievreg", "ievtype",
   "iqual", "isynth", "imagtyp", "imagsrc", "leven", "lpspol", "lovrok",
   "lcalda", "kevnm", "ko", "ka", "kt0", "kt1", "kt2", "kt3", "kt4",
   "kt5", "kt6", "kt7", "kt8", "kt9", "kf", "kuser0", "kuser1", "kuser2",
   "kdatrd", "kinst"]

/-- Modelled from the spec: the generic trace metadata (`trace.stats`):
an optional value per common attribute name plus the `sac` extra-field
bag (an optional value per SAC field name). -/
structure Stats where
  vals : String → Option SacVal
  sac : String → Option SacVal

/-- Modelled from the spec: the generic `Trace`: absolute start time (in
seconds, exact), metadata, and the sample block (absent after a
header-only read). -/
structure Trace where
  starttime : ℚ
  stats : Stats
  data : Option (List ℚ)

/-- Modelled from the spec: one SAC file on disk, as the reader sees it
after the binary layer: the decoded raw header and the sample block. -/
structure SacFile where
  header : SacHeader
  samples : List ℚ

/-- The six reference-time header fields `nzyear/nzjday/nzhour/nzmin/
nzsec/nzmsec` as one record of integers. -/
structure RefTime where
  nzyear : ℤ
  nzjday : ℤ
  nzhour : ℤ
  nzmin : ℤ
  nzsec : ℤ
  nzmsec : ℤ
deriving DecidableEq

/-- The whole-microsecond part of the fractional second of a time (what
Python exposes as `datetime.microsecond`, always in `[0, 1000000)`). -/
def usecOf (t : ℚ) : ℤ := ⌊(t - (⌊t⌋ : ℚ)) * 1000000⌋

/-- Modelled from the spec: `UTCDateTime`'s decomposition of an
absolute time into year/day-of-year/hour/minute/second/millisecond.
The spec (section 6) requires of the missing calendar collaborator only
that decomposition and recomposition be mutually inverse, so the
year/day-of-year pair is represented by a fixed 366-day year; hours,
minutes, seconds and the millisecond (`microsecond / 1e3`, floor — the
source's lossy `nzmsec` derivation) follow civil arithmetic exactly. -/
def toRefTime (t : ℚ) : RefTime :=
  let s : ℤ := ⌊t⌋
  let d : ℤ := s / 86400
  let r : ℤ := s % 86400
  { nzyear := d / 366
    nzjday := d % 366
    nzhour := r / 3600
    nzmin := r % 3600 / 60
    nzsec := r % 60
    nzmsec := usecOf t / 1000 }

/-- Modelled from the spec: `UTCDateTime`'s recomposition of an
absolute time from the six reference-time fields (inverse of
`toRefTime` at millisecond granularity). -/
def ofRefTime (r : RefTime) : ℚ :=
  (((r.nzyear * 366 + r.nzjday) * 86400 + r.nzhour * 3600 + r.nzmin * 60 + r.nzsec : ℤ) : ℚ)
    + (r.nzmsec : ℚ) / 1000

/-- A time truncated to millisecond precision. -/
def truncMs (t : ℚ) : ℚ := ((⌊t * 1000⌋ : ℤ) : ℚ) / 1000

/-- The reference-time fields currently stored in a raw header. -/
def refTimeOfHeader (h : SacHeader) : RefTime :=
  { nzyear := h.ivals "nzyear"
    nzjday := h.ivals "nzjday"
    nzhour := h.ivals "nzhour"
    nzmin := h.ivals "nzmin"
    nzsec := h.ivals "nzsec"
    nzmsec := h.ivals "nzmsec" }

/-- Modelled from the spec: `sacio`'s `t.starttime` — the base reference
time assembled from the `nzyear/nzjday/nzhour/nzmin/nzsec/nzmsec`
header fields. -/
def baseTime (h : SacHeader) : ℚ := ofRefTime (refTimeOfHeader h)

/-- Remove leading and trailing whitespace characters from a character
list (Python `str.strip()`; Python additionally strips the rare
`\x0b`/`\x0c`, which never occur in SAC string padding). -/
def stripChars (cs : List Char) : List Char :=
  ((cs.dropWhile Char.isWhitespace).reverse.dropWhile Char.isWhitespace).reverse

/-- Python `str.strip()` followed by the string-sentinel rewrite of
`readSAC`: a trimmed value equal to the text `-12345` becomes the empty
string. -/
def pyStrip (s : String) : String :=
  let t := String.mk (stripChars s.data)
  if t = "-12345" then "" else t

/-- One common-field value as `readSAC` decodes it: `GetHvalue`
followed by the string processing (strip and string-sentinel rewrite)
applied only to string values. -/
def readVal (h : SacHeader) (sacName : String) : SacVal :=
  match fieldKind sacName with
  | .kF => .f (h.fvals sacName)
  | .kI => .i (h.ivals sacName)
  | .kS => .s (pyStrip (h.svals sacName))

/-- The common (renamed) part of the trace metadata built by `readSAC`:
the rename table applied to the header, with the calibration float
sentinel `-12345.0` normalized to `1.0`. -/
def mkStatsVals (h : SacHeader) : String → Option SacVal := fun k =>
  match convert_dict.find? (fun p => p.2 = k) with
  | none => none
  | some p =>
      let v := readVal h p.1
      if k = "calib" ∧ v = .f (-12345) then some (.f 1) else some v

/-- The `sac` extra-field bag built by `readSAC`: every `sac_extra`
field verbatim from the header (sentinels preserved). -/
def mkSacBag (h : SacHeader) : String → Option SacVal := fun k =>
  if k ∈ sac_extra then some (rawVal h k) else none

/-- The whole trace metadata built by `readSAC` from a raw header. -/
def mkStats (h : SacHeader) : Stats :=
  { vals := mkStatsVals h, sac := mkSacBag h }

/-- Errors of the reader: `FormatError` (size inconsistent with the
declared sample count) and `UnsupportedTimeReferenceError` (the
`NotImplementedError` of `core.py` for an unrecognized `iztype`). -/
inductive ReadErr where
  | formatError
  | unsupportedTimeRef
deriving DecidableEq

/-- The start-time resolution rule of `readSAC`: `iztype == 11` adds
the float `b` field to the base reference time, `iztype` 9 or the
undefined sentinel `-12345` leaves the base time unchanged, and any
other value has no rule (the unsupported-time-reference error). -/
def startTimeOf (h : SacHeader) : Option ℚ :=
  if h.ivals "iztype" = 11 then some (baseTime h + h.fvals "b")
  else if h.ivals "iztype" = 9 ∨ h.ivals "iztype" = -12345 then some (baseTime h)
  else none

/-- Function `readSAC` of `core.py` over the file model: a full read first
checks the file size against the declared sample count (the missing
`sacio.ReadSacFile` validation; a header-only `ReadSacHeader` reads the
header alone, so no size check); then the metadata is built and the
start time resolved by `startTimeOf`, an unrecognized `iztype` raising
the unsupported-time-reference error; a header-only read returns the
trace without samples. -/
def readSAC (file : SacFile) (headonly : Bool) : Except ReadErr Trace :=
  if headonly = false ∧ file.header.ivals "npts" ≠ (file.samples.length : ℤ) then
    .error .formatError
  else
    match startTimeOf file.header with
    | none => .error .unsupportedTimeRef
    | some st =>
        .ok { starttime := st
              stats := mkStats file.header
              data := if headonly then none else some file.samples }

/-- Reinterpret the unsigned 32-bit value `n` as a signed 32-bit
integer (what `struct.unpack` with format `i` yields). -/
def toSigned32 (n : ℕ) : ℤ :=
  if n < 2147483648 then (n : ℤ) else (n : ℤ) - 4294967296

/-- The 4 bytes at offset 316 of a file decoded little-endian as a
signed 32-bit integer (`struct.unpack` with format `<i`). -/
def nptsLE (file : List ℕ) : ℤ :=
  toSigned32 (file.getD 316 0 + 256 * file.getD 317 0
    + 65536 * file.getD 318 0 + 16777216 * file.getD 319 0)

/-- The same 4 bytes decoded big-endian (`struct.unpack` with
format `>i`). -/
def nptsBE (file : List ℕ) : ℤ :=
  toSigned32 (file.getD 319 0 + 256 * file.getD 318 0
    + 65536 * file.getD 317 0 + 16777216 * file.getD 316 0)

/-- Function `isSAC` of `core.py` over a file modelled as its byte list: seek to
offset `4*70 + 4*9 = 316` and read 4 bytes (fewer than 4 available —
file shorter than 320 bytes — makes `struct.unpack` raise, caught by the
bare `except`, hence `False`); then compare the file size with
`632 + 4*npts` under the little-endian decode and, on mismatch, under
the big-endian decode; both mismatching yields `False`. -/
def isSAC (file : List ℕ) : Bool :=
  if file.length < 320 then false
  else if (file.length : ℤ) - (632 + 4 * nptsLE file) ≠ 0 then
    if (file.length : ℤ) - (632 + 4 * nptsBE file) ≠ 0 then false
    else true
  else true

/-- Error of the writer: Python `float()` applied to an inconvertible
value (`ValueError`), the one failure of `writeSAC` outside the
best-effort overlays. -/
inductive WriteErr where
  | valueError
deriving DecidableEq

/-- Modelled from the spec: Python `float(value)` on a header value —
floats pass through, integers convert exactly; conversion of strings
(which Python accepts only for numeric text) is not modelled and is
treated as the failing case. -/
def pyFloat : SacVal → Option ℚ
  | .f x => some x
  | .i n => some (n : ℚ)
  | .s _ => none

/-- Python `==` between a header value and an integer literal (used for
the `iztype` comparisons of `writeSAC`): numeric values compare by
value, strings never equal an integer. -/
def valEq : SacVal → ℤ → Bool
  | .i n, m => n == m
  | .f x, m => x == (m : ℚ)
  | .s _, _ => false

/-- The sample block a trace is written from (`trace.data`). -/
def dataOf (tr : Trace) : List ℚ := tr.data.getD []

/-- Modelled from the spec: attribute lookup on the generic
`trace.stats` used by the writer's common-field overlay.  The generic
trace model keeps the sample count equal to the samples' length, so
`npts` is always present with that value; other attributes are present
exactly when the metadata holds them. -/
def traceStat (tr : Trace) (k : String) : Option SacVal :=
  if k = "npts" then some (.i ((dataOf tr).length : ℤ)) else tr.stats.vals k

/-- Modelled from the spec: `trace.stats.delta`, the sample interval
passed to `fromarray` (the generic model defaults it to `1.0` when the
metadata does not hold a float for it). -/
def traceDelta (tr : Trace) : ℚ :=
  match tr.stats.vals "delta" with
  | some (.f x) => x
  | _ => 1

/-- One step of the writer's best-effort overlay, the
`try: SetHvalue ... except: pass` of `core.py`: an absent value is
skipped, and an error from `SetHvalue` on a present value is swallowed,
leaving the header unchanged. -/
def trySet (h : SacHeader) (name : String) (v? : Option SacVal) : SacHeader :=
  match v? with
  | none => h
  | some v =>
      match setHvalue h name v with
      | .ok h2 => h2
      | .error _ => h

/-- The writer's common-field overlay over an explicit table: for each
`(sacName, traceName)` pair, try to store the trace attribute into the
header. -/
def overlayCommonList (h : SacHeader) (tr : Trace) (l : List (String × String)) : SacHeader :=
  l.foldl (fun acc p => trySet acc p.1 (traceStat tr p.2)) h

/-- The writer's `convert_dict` overlay pass. -/
def overlayCommon (h : SacHeader) (tr : Trace) : SacHeader :=
  overlayCommonList h tr convert_dict

/-- The writer's extra-field overlay over an explicit name list: for
each SAC field name, try to store the trace's `sac` bag entry into the
header. -/
def overlayExtraList (h : SacHeader) (tr : Trace) (l : List String) : SacHeader :=
  l.foldl (fun acc n => trySet acc n (tr.stats.sac n)) h

/-- The writer's `sac_extra` overlay pass. -/
def overlayExtra (h : SacHeader) (tr : Trace) : SacHeader :=
  overlayExtraList h tr sac_extra

/-- Modelled from the spec: `sacio.InitArrays` + `fromarray` — a fresh
sentinel-filled header whose sample-derived fields are populated from
the sample block and sample interval, with an assumed begin offset of
`0.0` (spec section 4.3). -/
def fromarray (data : List ℚ) (delta : ℚ) : SacHeader :=
  setF (setF (setI initHeader "npts" (data.length : ℤ)) "delta" delta) "b" 0

/-- The six reference-time field assignments of `writeSAC`
(`SetHvalue('nzyear', ...)` through `SetHvalue('nzmsec', ...)`). -/
def setRefTime (h : SacHeader) (r : RefTime) : SacHeader :=
  setI (setI (setI (setI (setI (setI h "nzyear" r.nzyear) "nzjday" r.nzjday)
    "nzhour" r.nzhour) "nzmin" r.nzmin) "nzsec" r.nzsec) "nzmsec" r.nzmsec

/-- The on-disk reference time determined by `writeSAC`: start from
`trace.stats.starttime`; if the `sac` bag declares `iztype == 11`,
subtract `float(b)` (a missing `iztype`, a missing `sac` bag entry, or
a missing `b` raises `KeyError`, caught and ignored); `iztype` equal to
9 or the sentinel — and, by fallthrough, any other value — leaves the
start time unchanged.  Only a `float()` conversion failure escapes. -/
def adjStart (tr : Trace) : Except WriteErr ℚ :=
  match tr.stats.sac "iztype" with
  | none => .ok tr.starttime
  | some z =>
      if valEq z 11 then
        match tr.stats.sac "b" with
        | none => .ok tr.starttime
        | some bv =>
            match pyFloat bv with
            | some x => .ok (tr.starttime - x)
            | none => .error .valueError
      else .ok tr.starttime

/-- The per-trace body of `writeSAC`: fresh header from `fromarray`,
common-field overlay, extra-field overlay, then the reference-time
fields overwritten from the (possibly `b`-adjusted) start time; the
resulting file carries the raw samples. -/
def writeTrace (tr : Trace) : Except WriteErr SacFile :=
  match adjStart tr with
  | .error e => .error e
  | .ok st =>
      .ok { header := setRefTime
              (overlayExtra (overlayCommon (fromarray (dataOf tr) (traceDelta tr)) tr) tr)
              (toRefTime st)
            samples := dataOf tr }

/-- Index of the last occurrence of a character in a character list,
if any. -/
def lastIdx (c : Char) : List Char → Option ℕ
  | [] => none
  | a :: rest =>
      match lastIdx c rest with
      | some j => some (j + 1)
      | none => if a = c then some 0 else none

/-- Python `str.rfind`: index of the last occurrence, `-1` if absent. -/
def rfindIdx (c : Char) (cs : List Char) : ℤ :=
  match lastIdx c cs with
  | none => -1
  | some j => (j : ℤ)

/-- Python `os.path.splitext` on a character list (CPython's
`genericpath._splitext` with separator `/`): split at the last dot if it
lies after the last path separator and some character of the base name
before it is not a dot (so leading dots of the base name never start an
extension). -/
def splitextChars (cs : List Char) : List Char × List Char :=
  let sep := rfindIdx '/' cs
  let dot := rfindIdx '.' cs
  if sep < dot then
    if (List.range dot.toNat).any (fun j => decide (sep < (j : ℤ)) && (cs.getD j '.' != '.')) then
      (cs.take dot.toNat, cs.drop dot.toNat)
    else (cs, [])
  else (cs, [])

/-- Python `os.path.splitext` on strings: base name and extension. -/
def splitext (p : String) : String × String :=
  (String.mk (splitextChars p.data).1, String.mk (splitextChars p.data).2)

/-- Python `"%02d" % i` for a natural number: decimal digits padded
with a leading zero to width two. -/
def fmt2 (i : ℕ) : String :=
  if i < 10 then "0" ++ toString i else toString i

/-- The file name `writeSAC` uses for the trace at index `i`: the
requested path for index 0, and `base ++ "%02d" % i ++ ext` (the
two-digit zero-padded index inserted before the extension) for later
indices. -/
def sacFileName (fn : String) (i : ℕ) : String :=
  if i = 0 then fn else (splitext fn).1 ++ fmt2 i ++ (splitext fn).2

/-- The write loop of `writeSAC` from trace index `i` on, collecting
the `(file name, file)` pairs it produces. -/
def writeSACaux (fn : String) : List Trace → ℕ → Except WriteErr (List (String × SacFile))
  | [], _ => .ok []
  | tr :: rest, i =>
      match writeTrace tr with
      | .error e => .error e
      | .ok f =>
          match writeSACaux fn rest (i + 1) with
          | .error e => .error e
          | .ok out => .ok ((sacFileName fn i, f) :: out)

/-- Function `writeSAC` of `core.py`: write each trace of the stream in order,
the first to the requested path and the rest to indexed sibling
paths. -/
def writeSAC (stream : List Trace) (fn : String) : Except WriteErr (List (String × SacFile)) :=
  writeSACaux fn stream 0

/-! Helper lemmas. -/

/-- Dividing the microsecond count by 1000 (the writer's `nzmsec`
derivation) is truncation of the fractional second to milliseconds. -/
theorem usecOf_div_1000 (t : ℚ) : usecOf t / 1000 = ⌊(t - (⌊t⌋ : ℚ)) * 1000⌋ := by
  set frac : ℚ := t - (⌊t⌋ : ℚ) with hfrac
  set m : ℤ := ⌊frac * 1000⌋ with hm
  have h1 : (1000 * m : ℤ) ≤ usecOf t := by
    rw [usecOf, ← hfrac, Int.le_floor]
    have : (m : ℚ) ≤ frac * 1000 := Int.floor_le _
    push_cast
    nlinarith
  have h2 : usecOf t < 1000 * m + 1000 := by
    rw [usecOf, ← hfrac]
    have hlt : frac * 1000 < m + 1 := Int.lt_floor_add_one _
    have : ((1000 * m + 1000 : ℤ) : ℚ) > frac * 1000000 := by push_cast; nlinarith
    rw [Int.floor_lt]
    linarith

  omega

/-- Splitting a time at its floor splits its millisecond floor. -/
theorem floor_mul_1000 (t : ℚ) : ⌊t * 1000⌋ = 1000 * ⌊t⌋ + ⌊(t - (⌊t⌋ : ℚ)) * 1000⌋ := by
  have h1 : t * 1000 = ((1000 * ⌊t⌋ : ℤ) : ℚ) + (t - (⌊t⌋ : ℚ)) * 1000 := by push_cast; ring
  rw [h1, Int.floor_int_add]

/-- Recomposing the reference-time fields recovers the time truncated
to millisecond precision (the spec's decompose/recompose inverse, lossy
only in `nzmsec`). -/
theorem ofRefTime_toRefTime (t : ℚ) : ofRefTime (toRefTime t) = truncMs t := by
  have hint : ((⌊t⌋ / 86400 / 366 * 366 + ⌊t⌋ / 86400 % 366) * 86400
      + ⌊t⌋ % 86400 / 3600 * 3600 + ⌊t⌋ % 86400 % 3600 / 60 * 60
      + ⌊t⌋ % 86400 % 60 : ℤ) = ⌊t⌋ := by omega
  have h1 : ofRefTime (toRefTime t)
      = ((⌊t⌋ : ℤ) : ℚ) + ((usecOf t / 1000 : ℤ) : ℚ) / 1000 := by
    show (((⌊t⌋ / 86400 / 366 * 366 + ⌊t⌋ / 86400 % 366) * 86400
      + ⌊t⌋ % 86400 / 3600 * 3600 + ⌊t⌋ % 86400 % 3600 / 60 * 60
      + ⌊t⌋ % 86400 % 60 : ℤ) : ℚ) + ((usecOf t / 1000 : ℤ) : ℚ) / 1000 = _
    rw [hint]
  rw [h1, truncMs, floor_mul_1000, usecOf_div_1000]
  generalize ⌊(t - (⌊t⌋ : ℚ)) * 1000⌋ = b
  generalize ⌊t⌋ = a
  push_cast
  ring

theorem ivals_setI (h : SacHeader) (n : String) (x : ℤ) (k : String) :
    (setI h n x).ivals k = if k = n then x else h.ivals k := rfl

theorem fvals_setF (h : SacHeader) (n : String) (x : ℚ) (k : String) :
    (setF h n x).fvals k = if k = n then x else h.fvals k := rfl

theorem svals_setS (h : SacHeader) (n : String) (x : String) (k : String) :
    (setS h n x).svals k = if k = n then x else h.svals k := rfl

/-- A successful `setHvalue` never changes an integer slot other than
its target. -/
theorem setHvalue_ok_ivals_ne (h : SacHeader) (name : String) (v : SacVal)
    (h2 : SacHeader) (hok : setHvalue h name v = .ok h2) (k : String)
    (hk : k ≠ name) : h2.ivals k = h.ivals k := by
  cases v <;> simp only [setHvalue] at hok <;> split at hok <;>
    first
    | (injection hok with hok; subst hok; simp [setI, setF, setS, hk])
    | cases hok

/-- A successful `setHvalue` never changes a float slot other than its
target. -/
theorem setHvalue_ok_fvals_ne (h : SacHeader) (name : String) (v : SacVal)
    (h2 : SacHeader) (hok : setHvalue h name v = .ok h2) (k : String)
    (hk : k ≠ name) : h2.fvals k = h.fvals k := by
  cases v <;> simp only [setHvalue] at hok <;> split at hok <;>
    first
    | (injection hok with hok; subst hok; simp [setI, setF, setS, hk])
    | cases hok

/-- A successful `setHvalue` never changes a string slot other than its
target. -/
theorem setHvalue_ok_svals_ne (h : SacHeader) (name : String) (v : SacVal)
    (h2 : SacHeader) (hok : setHvalue h name v = .ok h2) (k : String)
    (hk : k ≠ name) : h2.svals k = h.svals k := by
  cases v <;> simp only [setHvalue] at hok <;> split at hok <;>
    first
    | (injection hok with hok; subst hok; simp [setI, setF, setS, hk])
    | cases hok

/-- A best-effort overlay step never changes an integer slot other than
its target. -/
theorem trySet_ivals_ne (h : SacHeader) (name : String) (v? : Option SacVal)
    (k : String) (hk : k ≠ name) : (trySet h name v?).ivals k = h.ivals k := by
  cases v? with
  | none => rfl
  | some v =>
      simp only [trySet]
      split
      case h_1 h2 heq => exact setHvalue_ok_ivals_ne h name v h2 heq k hk
      case h_2 => rfl

/-- A best-effort overlay step never changes a float slot other than
its target. -/
theorem trySet_fvals_ne (h : SacHeader) (name : String) (v? : Option SacVal)
    (k : String) (hk : k ≠ name) : (trySet h name v?).fvals k = h.fvals k := by
  cases v? with
  | none => rfl
  | some v =>
      simp only [trySet]
      split
      case h_1 h2 heq => exact setHvalue_ok_fvals_ne h name v h2 heq k hk
      case h_2 => rfl

/-- A best-effort overlay step never changes a string slot other than
its target. -/
theorem trySet_svals_ne (h : SacHeader) (name : String) (v? : Option SacVal)
    (k : String) (hk : k ≠ name) : (trySet h name v?).svals k = h.svals k := by
  cases v? with
  | none => rfl
  | some v =>
      simp only [trySet]
      split
      case h_1 h2 heq => exact setHvalue_ok_svals_ne h name v h2 heq k hk
      case h_2 => rfl

/-- Storing an integer into an integer slot succeeds and stores it. -/
theorem trySet_ivals_self (h : SacHeader) (k : String) (z : ℤ)
    (hkind : fieldKind k = .kI) : (trySet h k (some (.i z))).ivals k = z := by
  simp [trySet, setHvalue, hkind, setI]

/-- Storing a float into a float slot succeeds and stores it. -/
theorem trySet_fvals_self (h : SacHeader) (k : String) (x : ℚ)
    (hkind : fieldKind k = .kF) : (trySet h k (some (.f x))).fvals k = x := by
  simp [trySet, setHvalue, hkind, setF]

/-- The extra-field overlay leaves the integer slots of names outside
the list unchanged. -/
theorem overlayExtraList_ivals_notMem (tr : Trace) (k : String) :
    ∀ (l : List String) (h : SacHeader), k ∉ l →
      (overlayExtraList h tr l).ivals k = h.ivals k := by
  intro l
  induction l with
  | nil => intro h _; rfl
  | cons n rest ih =>
      intro h hk
      have hne : k ≠ n := fun hkn => hk (hkn ▸ List.mem_cons_self n rest)
      have hrest : k ∉ rest := fun hr => hk (List.mem_cons_of_mem n hr)
      calc (overlayExtraList (trySet h n (tr.stats.sac n)) tr rest).ivals k
          = (trySet h n (tr.stats.sac n)).ivals k := ih _ hrest
        _ = h.ivals k := trySet_ivals_ne _ _ _ _ hne

/-- The extra-field overlay leaves the float slots of names outside the
list unchanged. -/
theorem overlayExtraList_fvals_notMem (tr : Trace) (k : String) :
    ∀ (l : List String) (h : SacHeader), k ∉ l →
      (overlayExtraList h tr l).fvals k = h.fvals k := by
  intro l
  induction l with
  | nil => intro h _; rfl
  | cons n rest ih =>
      intro h hk
      have hne : k ≠ n := fun hkn => hk (hkn ▸ List.mem_cons_self n rest)
      have hrest : k ∉ rest := fun hr => hk (List.mem_cons_of_mem n hr)
      calc (overlayExtraList (trySet h n (tr.stats.sac n)) tr rest).fvals k
          = (trySet h n (tr.stats.sac n)).fvals k := ih _ hrest
        _ = h.fvals k := trySet_fvals_ne _ _ _ _ hne

/-- An extra field whose bag entry is absent keeps its header value
through the whole extra-field overlay (the skipped case). -/
theorem overlayExtraList_ivals_none (tr : Trace) (k : String)
    (hv : tr.stats.sac k = none) :
    ∀ (l : List String) (h : SacHeader),
      (overlayExtraList h tr l).ivals k = h.ivals k := by
  intro l
  induction l with
  | nil => intro h; rfl
  | cons n rest ih =>
      intro h
      refine (ih _).trans ?_
      show (trySet h n (tr.stats.sac n)).ivals k = h.ivals k
      by_cases hkn : k = n
      · subst hkn; rw [hv]; rfl
      · exact trySet_ivals_ne _ _ _ _ hkn

/-- An integer extra field present in the bag ends the overlay holding
that integer (the last store to it wins, later names leave it alone). -/
theorem overlayExtraList_ivals_set (tr : Trace) (k : String) (z : ℤ)
    (hkind : fieldKind k = .kI) (hv : tr.stats.sac k = some (.i z)) :
    ∀ (l : List String) (h : SacHeader), k ∈ l →
      (overlayExtraList h tr l).ivals k = z := by
  intro l
  induction l with
  | nil => intro h hmem; cases hmem
  | cons n rest ih =>
      intro h hmem
      by_cases hrest : k ∈ rest
      · exact ih _ hrest
      · have hkn : k = n := by
          rcases List.mem_cons.mp hmem with h1 | h1
          · exact h1
          · exact absurd h1 hrest
        subst hkn
        rw [overlayExtraList, List.foldl_cons, ← overlayExtraList,
          overlayExtraList_ivals_notMem tr k rest _ hrest, hv,
          trySet_ivals_self _ _ _ hkind]

/-- A float extra field present in the bag ends the overlay holding
that float. -/
theorem overlayExtraList_fvals_set (tr : Trace) (k : String) (x : ℚ)
    (hkind : fieldKind k = .kF) (hv : tr.stats.sac k = some (.f x)) :
    ∀ (l : List String) (h : SacHeader), k ∈ l →
      (overlayExtraList h tr l).fvals k = x := by
  intro l
  induction l with
  | nil => intro h hmem; cases hmem
  | cons n rest ih =>
      intro h hmem
      by_cases hrest : k ∈ rest
      · exact ih _ hrest
      · have hkn : k = n := by
          rcases List.mem_cons.mp hmem with h1 | h1
          · exact h1
          · exact absurd h1 hrest
        subst hkn
        rw [overlayExtraList, List.foldl_cons, ← overlayExtraList,
          overlayExtraList_fvals_notMem tr k rest _ hrest, hv,
          trySet_fvals_self _ _ _ hkind]

/-- The common-field overlay leaves the integer slots of SAC names
outside the table unchanged. -/
theorem overlayCommonList_ivals_notMem (tr : Trace) (k : String) :
    ∀ (l : List (String × String)) (h : SacHeader), k ∉ l.map Prod.fst →
      (overlayCommonList h tr l).ivals k = h.ivals k := by
  intro l
  induction l with
  | nil => intro h _; rfl
  | cons p rest ih =>
      intro h hk
      have hne : k ≠ p.1 := fun hkn => hk (by rw [List.map_cons, hkn]; exact List.mem_cons_self _ _)
      have hrest : k ∉ rest.map Prod.fst := fun hr => hk (by rw [List.map_cons]; exact List.mem_cons_of_mem _ hr)
      calc (overlayCommonList (trySet h p.1 (traceStat tr p.2)) tr rest).ivals k
          = (trySet h p.1 (traceStat tr p.2)).ivals k := ih _ hrest
        _ = h.ivals k := trySet_ivals_ne _ _ _ _ hne

/-- The common-field overlay leaves the float slots of SAC names
outside the table unchanged. -/
theorem overlayCommonList_fvals_notMem (tr : Trace) (k : String) :
    ∀ (l : List (String × String)) (h : SacHeader), k ∉ l.map Prod.fst →
      (overlayCommonList h tr l).fvals k = h.fvals k := by
  intro l
  induction l with
  | nil => intro h _; rfl
  | cons p rest ih =>
      intro h hk
      have hne : k ≠ p.1 := fun hkn => hk (by rw [List.map_cons, hkn]; exact List.mem_cons_self _ _)
      have hrest : k ∉ rest.map Prod.fst := fun hr => hk (by rw [List.map_cons]; exact List.mem_cons_of_mem _ hr)
      calc (overlayCommonList (trySet h p.1 (traceStat tr p.2)) tr rest).fvals k
          = (trySet h p.1 (traceStat tr p.2)).fvals k := ih _ hrest
        _ = h.fvals k := trySet_fvals_ne _ _ _ _ hne

/-- Inversion of a successful full read: the declared sample count
matched the sample block, the start time was resolved by the three-way
rule, and the trace is the one `readSAC` builds. -/
theorem readSAC_ok_full (file : SacFile) (tr : Trace)
    (hok : readSAC file false = .ok tr) :
    file.header.ivals "npts" = (file.samples.length : ℤ) ∧
      ∃ st, startTimeOf file.header = some st ∧
        tr = { starttime := st, stats := mkStats file.header,
               data := some file.samples } := by
  unfold readSAC at hok
  split at hok
  · cases hok
  case isFalse hcond =>
    refine ⟨?_, ?_⟩
    · by_contra hne
      exact hcond ⟨rfl, hne⟩
    · split at hok
      · cases hok
      case h_2 st hst =>
        injection hok with hok
        exact ⟨st, hst, hok.symm⟩

/-! Claim theorems. -/

/-- C2: `isSAC` returns true exactly when the file holds at least 320
bytes (so the 4-byte probe at offset 316 succeeds) and the actual file
size equals `632 + 4*npts` with `npts` the signed 32-bit little-endian
decode of those bytes or, failing that, the big-endian decode; a file
shorter than 320 bytes (the probe's I/O failure) yields false rather
than an error. -/
theorem isSAC_iff_size_matches (file : List ℕ) :
    isSAC file = true ↔
      320 ≤ file.length ∧
        ((file.length : ℤ) = 632 + 4 * nptsLE file ∨
          (file.length : ℤ) = 632 + 4 * nptsBE file) := by
  unfold isSAC
  by_cases h1 : file.length < 320
  · rw [if_pos h1]
    constructor
    · intro h; cases h
    · rintro ⟨h2, _⟩; omega
  · rw [if_neg h1]
    by_cases h2 : (file.length : ℤ) - (632 + 4 * nptsLE file) ≠ 0
    · rw [if_pos h2]
      by_cases h3 : (file.length : ℤ) - (632 + 4 * nptsBE file) ≠ 0
      · rw [if_pos h3]
        constructor
        · intro h; cases h
        · rintro ⟨_, h4 | h4⟩ <;> omega
      · rw [if_neg h3]
        exact ⟨fun _ => ⟨by omega, Or.inr (by omega)⟩, fun _ => rfl⟩
    · rw [if_neg h2]
      exact ⟨fun _ => ⟨by omega, Or.inl (by omega)⟩, fun _ => rfl⟩

/-- C3: on a readable file (size consistent with the declared sample
count), `read` resolves the start time by the three-way `iztype` rule:
11 adds the float `b` field to the base reference time assembled from
the `nz*` fields; 9 or the sentinel `-12345` leaves the base time
unchanged; any other value fails with the unsupported-time-reference
error instead of returning a trace. -/
theorem readSAC_iztype_rule (file : SacFile)
    (hsz : file.header.ivals "npts" = (file.samples.length : ℤ)) :
    (file.header.ivals "iztype" = 11 →
      ∃ tr, readSAC file false = .ok tr ∧
        tr.starttime = baseTime file.header + file.header.fvals "b") ∧
    (file.header.ivals "iztype" = 9 ∨ file.header.ivals "iztype" = -12345 →
      ∃ tr, readSAC file false = .ok tr ∧ tr.starttime = baseTime file.header) ∧
    (file.header.ivals "iztype" ≠ 11 → file.header.ivals "iztype" ≠ 9 →
      file.header.ivals "iztype" ≠ -12345 →
      readSAC file false = .error .unsupportedTimeRef) := by
  have hcond : ¬(false = false ∧ file.header.ivals "npts" ≠ (file.samples.length : ℤ)) :=
    fun hc => hc.2 hsz
  refine ⟨fun hz => ?_, fun hz => ?_, fun h11 h9 hs => ?_⟩
  · have hst : startTimeOf file.header
        = some (baseTime file.header + file.header.fvals "b") := by
      rw [startTimeOf, if_pos hz]
    refine ⟨{ starttime := baseTime file.header + file.header.fvals "b",
              stats := mkStats file.header, data := some file.samples }, ?_, rfl⟩
    rw [readSAC, if_neg hcond, hst]
    rfl
  · have h11 : file.header.ivals "iztype" ≠ 11 := by rcases hz with h | h <;> omega
    have hst : startTimeOf file.header = some (baseTime file.header) := by
      rw [startTimeOf, if_neg h11, if_pos hz]
    refine ⟨{ starttime := baseTime file.header,
              stats := mkStats file.header, data := some file.samples }, ?_, rfl⟩
    rw [readSAC, if_neg hcond, hst]
    rfl
  · have hst : startTimeOf file.header = none := by
      rw [startTimeOf, if_neg h11, if_neg (by tauto)]
    rw [readSAC, if_neg hcond, hst]

/-- A concrete empty-sample file whose header declares `iztype = 11`
and `b = 1/2` (used as a witness input). -/
def fileIz11 : SacFile :=
  { header := setF (setI (setI initHeader "npts" 0) "iztype" 11) "b" (1/2), samples := [] }

/-- A concrete empty-sample file whose header declares `iztype = 3`
(used as a witness input). -/
def fileIz3 : SacFile :=
  { header := setI (setI initHeader "npts" 0) "iztype" 3, samples := [] }

/-- Witness for C3: a concrete header with `iztype = 11` and `b = 1/2`
resolves the start time to base + 1/2, and a header with `iztype = 3`
makes the read fail. -/
theorem readSAC_iztype_rule_witness :
    (∃ tr, readSAC fileIz11 false = .ok tr ∧
        tr.starttime = baseTime fileIz11.header + 1/2) ∧
    readSAC fileIz3 false = .error .unsupportedTimeRef := by
  constructor
  · exact (readSAC_iztype_rule fileIz11 rfl).1 rfl
  · exact (readSAC_iztype_rule fileIz3 rfl).2.2 (by decide) (by decide) (by decide)

/-- C5: on read, a header whose `scale` field is exactly the float
sentinel `-12345.0` yields calibration `1.0`; any other `scale` value
becomes the calibration unchanged. -/
theorem readSAC_calibration_sentinel (file : SacFile) (tr : Trace)
    (hok : readSAC file false = .ok tr) :
    tr.stats.vals "calib"
      = some (.f (if file.header.fvals "scale" = -12345 then 1
                  else file.header.fvals "scale")) := by
  obtain ⟨-, st, -, htr⟩ := readSAC_ok_full file tr hok
  subst htr
  show (if "calib" = "calib" ∧ SacVal.f (file.header.fvals "scale") = SacVal.f (-12345)
      then some (SacVal.f 1) else some (SacVal.f (file.header.fvals "scale"))) = _
  by_cases hs : file.header.fvals "scale" = -12345
  · rw [if_pos ⟨rfl, by rw [hs]⟩, if_pos hs]
  · rw [if_neg (fun hc => hs (SacVal.f.inj hc.2)), if_neg hs]

/-- A concrete empty-sample file whose header declares `iztype = 9`
and leaves every other slot at its sentinel (used as a witness
input). -/
def fileIz9 : SacFile :=
  { header := setI (setI initHeader "npts" 0) "iztype" 9, samples := [] }

/-- The trace `readSAC` produces for `fileIz9`. -/
def traceIz9 : Trace :=
  { starttime := baseTime fileIz9.header, stats := mkStats fileIz9.header,
    data := some [] }

/-- Witness for C5: reading a header with sentinel `scale` yields
calibration `1.0`. -/
theorem readSAC_calibration_sentinel_witness :
    traceIz9.stats.vals "calib" = some (.f 1) := by
  have h := readSAC_calibration_sentinel fileIz9 traceIz9 rfl
  rw [h]
  rfl

/-- C6: on read, each string-valued common field (channel, station,
network, location) is the header string trimmed of padding/whitespace,
with a trimmed value equal to the text `-12345` replaced by the empty
string and every other value kept as trimmed. -/
theorem readSAC_string_sentinel (file : SacFile) (tr : Trace)
    (hok : readSAC file false = .ok tr) :
    tr.stats.vals "channel" = some (.s (pyStrip (file.header.svals "kcmpnm"))) ∧
    tr.stats.vals "station" = some (.s (pyStrip (file.header.svals "kstnm"))) ∧
    tr.stats.vals "network" = some (.s (pyStrip (file.header.svals "knetwk"))) ∧
    tr.stats.vals "location" = some (.s (pyStrip (file.header.svals "khole"))) := by
  obtain ⟨-, st, -, htr⟩ := readSAC_ok_full file tr hok
  subst htr
  refine ⟨?_, ?_, ?_, ?_⟩
  · show (if "channel" = "calib" ∧ SacVal.s (pyStrip (file.header.svals "kcmpnm")) = SacVal.f (-12345)
        then some (SacVal.f 1) else some (SacVal.s (pyStrip (file.header.svals "kcmpnm")))) = _
    exact if_neg (fun hc => absurd hc.1 (by decide))
  · show (if "station" = "calib" ∧ SacVal.s (pyStrip (file.header.svals "kstnm")) = SacVal.f (-12345)
        then some (SacVal.f 1) else some (SacVal.s (pyStrip (file.header.svals "kstnm")))) = _
    exact if_neg (fun hc => absurd hc.1 (by decide))
  · show (if "network" = "calib" ∧ SacVal.s (pyStrip (file.header.svals "knetwk")) = SacVal.f (-12345)
        then some (SacVal.f 1) else some (SacVal.s (pyStrip (file.header.svals "knetwk")))) = _
    exact if_neg (fun hc => absurd hc.1 (by decide))
  · show (if "location" = "calib" ∧ SacVal.s (pyStrip (file.header.svals "khole")) = SacVal.f (-12345)
        then some (SacVal.f 1) else some (SacVal.s (pyStrip (file.header.svals "khole")))) = _
    exact if_neg (fun hc => absurd hc.1 (by decide))

/-- A concrete empty-sample file whose `kstnm` slot holds padded text
and whose `kcmpnm` slot holds the padded string sentinel (used as a
witness input). -/
def fileStrings : SacFile :=
  { header := setS (setS (setI (setI initHeader "npts" 0) "iztype" 9)
      "kstnm" "ABC   ") "kcmpnm" "-12345  ", samples := [] }

/-- The trace `readSAC` produces for `fileStrings`. -/
def traceStrings : Trace :=
  { starttime := baseTime fileStrings.header, stats := mkStats fileStrings.header,
    data := some [] }

/-- Witness for C6: the padded station name reads back trimmed and the
padded string sentinel in the channel slot reads back empty. -/
theorem readSAC_string_sentinel_witness :
    traceStrings.stats.vals "channel" = some (.s "") ∧
    traceStrings.stats.vals "station" = some (.s "ABC") := by
  have h := readSAC_string_sentinel fileStrings traceStrings rfl
  refine ⟨h.1.trans ?_, h.2.1.trans ?_⟩ <;> rfl

/-- C10: a header-only read applies the same `iztype` validation as a
full read: an `iztype` outside 9, 11 and the sentinel `-12345` fails
with the unsupported-time-reference error instead of returning a
sample-less trace, and a supported `iztype` returns the trace with the
start time resolved by the same rule (`startTimeOf`) but with no
samples. -/
theorem readSAC_headonly_iztype (file : SacFile) :
    (file.header.ivals "iztype" ≠ 11 → file.header.ivals "iztype" ≠ 9 →
      file.header.ivals "iztype" ≠ -12345 →
      readSAC file true = .error .unsupportedTimeRef) ∧
    (∀ st, startTimeOf file.header = some st →
      readSAC file true
        = .ok { starttime := st, stats := mkStats file.header, data := none }) := by
  have hcond : ¬(true = false ∧ file.header.ivals "npts" ≠ (file.samples.length : ℤ)) :=
    fun hc => nomatch hc.1
  refine ⟨fun h11 h9 hs => ?_, fun st hst => ?_⟩
  · have hstn : startTimeOf file.header = none := by
      rw [startTimeOf, if_neg h11, if_neg (by tauto)]
    rw [readSAC, if_neg hcond, hstn]
  · rw [readSAC, if_neg hcond, hst]
    rfl

/-- Witness for C10: header-only reads of the concrete `iztype = 3` and
`iztype = 9` files. -/
theorem readSAC_headonly_iztype_witness :
    readSAC fileIz3 true = .error .unsupportedTimeRef ∧
    readSAC fileIz9 true
      = .ok { starttime := baseTime fileIz9.header, stats := mkStats fileIz9.header,
              data := none } := by
  constructor
  · exact (readSAC_headonly_iztype fileIz3).1 (by decide) (by decide) (by decide)
  · exact (readSAC_headonly_iztype fileIz9).2 (baseTime fileIz9.header) rfl

/-- The names produced by the write loop from index `i` on are
`sacFileName` of the successive indices. -/
theorem writeSACaux_names (fn : String) :
    ∀ (l : List Trace) (i : ℕ) (out : List (String × SacFile)),
      writeSACaux fn l i = .ok out →
        out.map Prod.fst = (List.range l.length).map (fun j => sacFileName fn (i + j)) := by
  intro l
  induction l with
  | nil =>
      intro i out hok
      injection hok with hok
      rw [← hok]
      rfl
  | cons tr rest ih =>
      intro i out hok
      rw [writeSACaux] at hok
      cases hw : writeTrace tr with
      | error e => rw [hw] at hok; cases hok
      | ok f =>
          rw [hw] at hok
          cases haux : writeSACaux fn rest (i + 1) with
          | error e => rw [haux] at hok; cases hok
          | ok out2 =>
              rw [haux] at hok
              injection hok with hok
              rw [← hok, List.map_cons, ih (i + 1) out2 haux, List.length_cons,
                List.range_succ_eq_map, List.map_cons, List.map_map, Nat.add_zero]
              refine congrArg (_ :: ·) (List.map_congr_left fun j _ => ?_)
              show sacFileName fn (i + 1 + j) = sacFileName fn (i + Nat.succ j)
              exact congrArg (sacFileName fn) (by omega)

/-- C7: when a write of a stream succeeds, the trace at index 0 is
written to exactly the requested path and the trace at index `i > 0`
to the path with the `%02d`-formatted index inserted between the base
name and the extension (`splitext`); for every positive index below
100 that inserted text is two characters, the zero-padded decimal of
`i`. -/
theorem writeSAC_file_naming (stream : List Trace) (fn : String)
    (out : List (String × SacFile)) (hok : writeSAC stream fn = .ok out) :
    out.map Prod.fst = (List.range stream.length).map (sacFileName fn) ∧
    sacFileName fn 0 = fn ∧
    (∀ i : ℕ, 0 < i →
      sacFileName fn i = (splitext fn).1 ++ fmt2 i ++ (splitext fn).2) ∧
    (∀ i : ℕ, i < 100 → 0 < i → (fmt2 i).length = 2) := by
  refine ⟨?_, rfl, fun i hi => ?_, ?_⟩
  · have h := writeSACaux_names fn stream 0 out hok
    rw [h]
    exact List.map_congr_left fun j _ => by rw [Nat.zero_add]
  · rw [sacFileName, if_neg (Nat.pos_iff_ne_zero.mp hi)]
  · decide

/-- A minimal trace with empty samples and empty metadata (used as a
witness input). -/
def simpleTrace : Trace :=
  { starttime := 0, stats := { vals := fun _ => none, sac := fun _ => none },
    data := some [] }

/-- The files a successful write of three minimal traces to `run.sac`
produces. -/
def out3 : List (String × SacFile) :=
  ((writeSAC [simpleTrace, simpleTrace, simpleTrace] "run.sac").toOption).getD []

/-- Witness for C7: writing 3 traces to `run.sac` produces `run.sac`,
`run01.sac`, `run02.sac`. -/
theorem writeSAC_file_naming_witness :
    out3.map Prod.fst = ["run.sac", "run01.sac", "run02.sac"] := by
  have h := writeSAC_file_naming [simpleTrace, simpleTrace, simpleTrace] "run.sac" out3 rfl
  rw [h.1]
  rfl

theorem setRefTime_ivals_npts (h : SacHeader) (r : RefTime) :
    (setRefTime h r).ivals "npts" = h.ivals "npts" := rfl

theorem setRefTime_ivals_iztype (h : SacHeader) (r : RefTime) :
    (setRefTime h r).ivals "iztype" = h.ivals "iztype" := rfl

theorem setRefTime_fvals (h : SacHeader) (r : RefTime) :
    (setRefTime h r).fvals = h.fvals := rfl

/-- Writing the six reference-time fields stores exactly those
fields. -/
theorem refTimeOfHeader_setRefTime (h : SacHeader) (r : RefTime) :
    refTimeOfHeader (setRefTime h r) = r := rfl

/-- After the common-field overlay the header's `npts` slot holds the
trace's sample count (the `npts` attribute is always present and the
later table entries do not touch the slot). -/
theorem overlayCommon_ivals_npts (h : SacHeader) (tr : Trace) :
    (overlayCommon h tr).ivals "npts" = ((dataOf tr).length : ℤ) := by
  show (overlayCommonList (trySet h "npts" (traceStat tr "npts")) tr
      [("delta", "delta"), ("kcmpnm", "channel"), ("kstnm", "station"),
       ("scale", "calib"), ("knetwk", "network"), ("khole", "location")]).ivals "npts" = _
  rw [overlayCommonList_ivals_notMem tr "npts" _ _ (by decide)]
  show (trySet h "npts" (some (.i ((dataOf tr).length : ℤ)))).ivals "npts" = _
  exact trySet_ivals_self _ _ _ rfl

theorem overlayCommon_ivals_iztype (h : SacHeader) (tr : Trace) :
    (overlayCommon h tr).ivals "iztype" = h.ivals "iztype" :=
  overlayCommonList_ivals_notMem tr "iztype" convert_dict h (by decide)

theorem overlayCommon_fvals_b (h : SacHeader) (tr : Trace) :
    (overlayCommon h tr).fvals "b" = h.fvals "b" :=
  overlayCommonList_fvals_notMem tr "b" convert_dict h (by decide)

theorem overlayExtra_ivals_npts (h : SacHeader) (tr : Trace) :
    (overlayExtra h tr).ivals "npts" = h.ivals "npts" :=
  overlayExtraList_ivals_notMem tr "npts" sac_extra h (by decide)

/-- C8 counterexample: a trace whose `station` attribute is present but
holds an integer (a type mismatch for the string slot `kstnm`).
`SetHvalue` fails on it, yet the write completes successfully — the
bare `except: pass` of the overlay swallows the error instead of
propagating it out of `write`. -/
def mismatchTrace : Trace :=
  { starttime := 0,
    stats := { vals := fun k => if k = "station" then some (.i 7) else none,
               sac := fun _ => none },
    data := some [] }

/-- The files the write of `mismatchTrace` produces. -/
def outMismatch : List (String × SacFile) :=
  ((writeSAC [mismatchTrace] "x.sac").toOption).getD []

/-- C8 (counterexample): the `station` field is present on the trace
and setting it fails with a type mismatch, yet `writeSAC` returns
successfully — the error does not propagate out of `write`. -/
theorem overlay_error_propagates_cex :
    traceStat mismatchTrace "station" = some (SacVal.i 7) ∧
    setHvalue initHeader "kstnm" (SacVal.i 7) = .error .typeMismatch ∧
    writeSAC [mismatchTrace] "x.sac" = .ok outMismatch :=
  ⟨rfl, rfl, rfl⟩

/-- C8 (amended): the writer's overlay passes are best-effort in both
directions: a field absent from the trace's metadata is skipped, and an
error from `SetHvalue` on a field that is present is also silently
swallowed, leaving the header slot unchanged — no overlay error
propagates out of `write`. -/
theorem overlay_error_swallowed (h : SacHeader) (name : String) (v : SacVal)
    (e : SetErr) (he : setHvalue h name v = .error e) :
    trySet h name (some v) = h := by
  simp only [trySet, he]

/-- Witness for the amended C8: the concrete mismatched store leaves
the header untouched. -/
theorem overlay_error_swallowed_witness :
    trySet initHeader "kstnm" (some (SacVal.i 7)) = initHeader :=
  overlay_error_swallowed initHeader "kstnm" (SacVal.i 7) .typeMismatch rfl

/-- C9: a trace declaring an integer `iztype` other than 11, 9 and the
sentinel `-12345` is written without error: the reference-time fields
are encoded directly from `start_time`, exactly as in the begin-time
case, while reading the resulting file back fails with the
unsupported-time-reference error — write is asymmetric with read. -/
theorem write_unsupported_iztype_asymmetry (tr : Trace) (z : ℤ)
    (hz : tr.stats.sac "iztype" = some (.i z)) (h11 : z ≠ 11) (h9 : z ≠ 9)
    (hs : z ≠ -12345) :
    ∃ f, writeTrace tr = .ok f ∧
      refTimeOfHeader f.header = toRefTime tr.starttime ∧
      readSAC f false = .error .unsupportedTimeRef := by
  have hadj : adjStart tr = .ok tr.starttime := by
    simp only [adjStart, hz, valEq]
    rw [if_neg (by simp [h11])]
  have hw : writeTrace tr
      = .ok { header := setRefTime
                (overlayExtra (overlayCommon (fromarray (dataOf tr) (traceDelta tr)) tr) tr)
                (toRefTime tr.starttime)
              samples := dataOf tr } := by
    rw [writeTrace, hadj]
  refine ⟨_, hw, refTimeOfHeader_setRefTime _ _, ?_⟩
  have hnpts : (setRefTime
      (overlayExtra (overlayCommon (fromarray (dataOf tr) (traceDelta tr)) tr) tr)
      (toRefTime tr.starttime)).ivals "npts" = ((dataOf tr).length : ℤ) := by
    rw [setRefTime_ivals_npts, overlayExtra_ivals_npts, overlayCommon_ivals_npts]
  have hiz : (setRefTime
      (overlayExtra (overlayCommon (fromarray (dataOf tr) (traceDelta tr)) tr) tr)
      (toRefTime tr.starttime)).ivals "iztype" = z := by
    rw [setRefTime_ivals_iztype]
    exact overlayExtraList_ivals_set tr "iztype" z rfl hz sac_extra _ (by decide)
  have hstn : startTimeOf (setRefTime
      (overlayExtra (overlayCommon (fromarray (dataOf tr) (traceDelta tr)) tr) tr)
      (toRefTime tr.starttime)) = none := by
    rw [startTimeOf, hiz, if_neg h11, if_neg (by tauto)]
  rw [readSAC, if_neg (fun hc => hc.2 hnpts), hstn]

/-- A concrete trace declaring `iztype = 3` (used as a witness
input). -/
def traceIz3meta : Trace :=
  { starttime := 0,
    stats := { vals := fun _ => none,
               sac := fun k => if k = "iztype" then some (.i 3) else none },
    data := some [] }

/-- Witness for C9: the `iztype = 3` trace writes successfully and the
written file reads back as the unsupported-time-reference error. -/
theorem write_unsupported_iztype_asymmetry_witness :
    ∃ f, writeTrace traceIz3meta = .ok f ∧
      refTimeOfHeader f.header = toRefTime traceIz3meta.starttime ∧
      readSAC f false = .error .unsupportedTimeRef :=
  write_unsupported_iztype_asymmetry traceIz3meta 3 rfl (by decide) (by decide) (by decide)

theorem fromarray_ivals_iztype (d : List ℚ) (delta : ℚ) :
    (fromarray d delta).ivals "iztype" = -12345 := rfl

/-- C1: writing a trace whose `sac` bag holds `iztype` 9, the sentinel
`-12345`, or no `iztype` at all, as the sole trace of a stream, and
reading the file back yields a trace with exactly the same samples and
with the original start time truncated to millisecond precision. -/
theorem write_read_roundtrip_begin (tr : Trace) (xs : List ℚ) (p : String)
    (hd : tr.data = some xs)
    (hz : tr.stats.sac "iztype" = some (.i 9) ∨
      tr.stats.sac "iztype" = some (.i (-12345)) ∨
      tr.stats.sac "iztype" = none) :
    ∃ f tr2, writeSAC [tr] p = .ok [(p, f)] ∧ readSAC f false = .ok tr2 ∧
      tr2.data = some xs ∧ tr2.starttime = truncMs tr.starttime := by
  have hadj : adjStart tr = .ok tr.starttime := by
    rcases hz with h | h | h
    · simp only [adjStart, h, valEq]
      rw [if_neg (by decide)]
    · simp only [adjStart, h, valEq]
      rw [if_neg (by decide)]
    · simp only [adjStart, h]
  set h3 : SacHeader := setRefTime
      (overlayExtra (overlayCommon (fromarray (dataOf tr) (traceDelta tr)) tr) tr)
      (toRefTime tr.starttime) with hh3
  have hw : writeTrace tr = .ok { header := h3, samples := dataOf tr } := by
    rw [writeTrace, hadj]
  have hizok : h3.ivals "iztype" = 9 ∨ h3.ivals "iztype" = -12345 := by
    rw [hh3, setRefTime_ivals_iztype]
    rcases hz with h | h | h
    · exact Or.inl (overlayExtraList_ivals_set tr "iztype" 9 rfl h sac_extra _ (by decide))
    · exact Or.inr (overlayExtraList_ivals_set tr "iztype" (-12345) rfl h sac_extra _ (by decide))
    · refine Or.inr ?_
      rw [show overlayExtra (overlayCommon (fromarray (dataOf tr) (traceDelta tr)) tr) tr
          = overlayExtraList (overlayCommon (fromarray (dataOf tr) (traceDelta tr)) tr) tr sac_extra
          from rfl,
        overlayExtraList_ivals_none tr "iztype" h sac_extra _,
        overlayCommon_ivals_iztype, fromarray_ivals_iztype]
  have hnpts : h3.ivals "npts" = ((dataOf tr).length : ℤ) := by
    rw [hh3, setRefTime_ivals_npts, overlayExtra_ivals_npts, overlayCommon_ivals_npts]
  have hst3 : startTimeOf h3 = some (baseTime h3) := by
    rw [startTimeOf, if_neg (by rcases hizok with h | h <;> omega), if_pos hizok]
  have hbase : baseTime h3 = truncMs tr.starttime := by
    rw [hh3, baseTime, refTimeOfHeader_setRefTime, ofRefTime_toRefTime]
  refine ⟨{ header := h3, samples := dataOf tr },
          { starttime := baseTime h3, stats := mkStats h3, data := some (dataOf tr) },
          ?_, ?_, ?_, ?_⟩
  · show writeSACaux p [tr] 0 = _
    rw [writeSACaux, hw]
    rfl
  · rw [readSAC]
    rw [if_neg (fun hc => hc.2 hnpts)]
    rw [hst3]
    rfl
  · show some (dataOf tr) = some xs
    rw [dataOf, hd]
    rfl
  · show baseTime h3 = truncMs tr.starttime
    exact hbase

/-- A concrete trace with `iztype = 9`, samples `[1, 2]` and start
time `5/2` seconds (used as a witness input). -/
def traceBegin : Trace :=
  { starttime := 5/2,
    stats := { vals := fun _ => none,
               sac := fun k => if k = "iztype" then some (.i 9) else none },
    data := some [1, 2] }

/-- Witness for C1: the concrete begin-time trace round-trips with its
samples intact and its start time truncated to milliseconds. -/
theorem write_read_roundtrip_begin_witness :
    ∃ f tr2, writeSAC [traceBegin] "run.sac" = .ok [("run.sac", f)] ∧
      readSAC f false = .ok tr2 ∧
      tr2.data = some [1, 2] ∧ tr2.starttime = truncMs (5/2) :=
  write_read_roundtrip_begin traceBegin [1, 2] "run.sac" rfl (Or.inl rfl)

/-- C4: writing a trace whose `sac` bag declares `iztype = 11` with a
float offset `b` (write subtracts `b` from the start time before
encoding the reference-time fields) and reading the file back (read
adds `b`) yields the original start time up to millisecond truncation
of the encoded reference time, and exactly whenever the encoded
reference time `start_time - b` is already millisecond-aligned. -/
theorem write_read_roundtrip_origin (tr : Trace) (p : String) (b : ℚ)
    (hz : tr.stats.sac "iztype" = some (.i 11))
    (hb : tr.stats.sac "b" = some (.f b)) :
    ∃ f tr2, writeSAC [tr] p = .ok [(p, f)] ∧ readSAC f false = .ok tr2 ∧
      tr2.starttime = truncMs (tr.starttime - b) + b ∧
      (truncMs (tr.starttime - b) = tr.starttime - b →
        tr2.starttime = tr.starttime) := by
  have hadj : adjStart tr = .ok (tr.starttime - b) := by
    simp only [adjStart, hz, hb]
    rw [if_pos (by decide)]
    rfl
  set h3 : SacHeader := setRefTime
      (overlayExtra (overlayCommon (fromarray (dataOf tr) (traceDelta tr)) tr) tr)
      (toRefTime (tr.starttime - b)) with hh3
  have hw : writeTrace tr = .ok { header := h3, samples := dataOf tr } := by
    rw [writeTrace, hadj]
  have hiz : h3.ivals "iztype" = 11 := by
    rw [hh3, setRefTime_ivals_iztype]
    exact overlayExtraList_ivals_set tr "iztype" 11 rfl hz sac_extra _ (by decide)
  have hbv : h3.fvals "b" = b := by
    rw [hh3, setRefTime_fvals]
    exact overlayExtraList_fvals_set tr "b" b rfl hb sac_extra _ (by decide)
  have hnpts : h3.ivals "npts" = ((dataOf tr).length : ℤ) := by
    rw [hh3, setRefTime_ivals_npts, overlayExtra_ivals_npts, overlayCommon_ivals_npts]
  have hst3 : startTimeOf h3 = some (baseTime h3 + h3.fvals "b") := by
    rw [startTimeOf, hiz, if_pos rfl]
  have hbase : baseTime h3 = truncMs (tr.starttime - b) := by
    rw [hh3, baseTime, refTimeOfHeader_setRefTime, ofRefTime_toRefTime]
  refine ⟨{ header := h3, samples := dataOf tr },
          { starttime := baseTime h3 + h3.fvals "b", stats := mkStats h3,
            data := some (dataOf tr) }, ?_, ?_, ?_, ?_⟩
  · show writeSACaux p [tr] 0 = _
    rw [writeSACaux, hw]
    rfl
  · rw [readSAC]
    rw [if_neg (fun hc => hc.2 hnpts)]
    rw [hst3]
    rfl
  · show baseTime h3 + h3.fvals "b" = truncMs (tr.starttime - b) + b
    rw [hbase, hbv]
  · intro he
    show baseTime h3 + h3.fvals "b" = tr.starttime
    rw [hbase, hbv, he]
    ring

/-- A concrete trace with `iztype = 11` and `b = 3/2`, whose start time
minus `b` is millisecond-aligned (used as a witness input). -/
def traceOrigin : Trace :=
  { starttime := 5/2,
    stats := { vals := fun _ => none,
               sac := fun k =>
                 if k = "iztype" then some (.i 11)
                 else if k = "b" then some (.f (3/2)) else none },
    data := some [] }

/-- Witness for C4: the concrete origin-time trace recovers its exact
start time, its encoded reference time being millisecond-aligned. -/
theorem write_read_roundtrip_origin_witness :
    ∃ f tr2, writeSAC [traceOrigin] "o.sac" = .ok [("o.sac", f)] ∧
      readSAC f false = .ok tr2 ∧
      tr2.starttime = truncMs (5/2 - 3/2) + 3/2 ∧
      (truncMs (5/2 - 3/2) = 5/2 - 3/2 → tr2.starttime = 5/2) :=
  write_read_roundtrip_origin traceOrigin "o.sac" (3/2) rfl rfl

end SAC
